import Mathlib

/-!
Verification of the local persistence engine (`local-storage-manager.ts`) and its
network-compatibility shim (`local-rest-api.ts`).

The storage engine is embedded as a pure state machine: each IndexedDB object
store becomes a list of records keyed by `id`, the metadata table becomes a
record of optional persisted counter values, and the three in-memory id counters
become `Nat` fields.  Timestamps (`new Date().toISOString()`) are modelled as an
abstract logical instant `now : Nat` passed to every operation; the two reads
inside one operation are the same instant.  JavaScript default-filling is
modelled faithfully: `x || d` treats the empty string and `0` as falsy (objects
and arrays are always truthy), `x ?? d` only replaces null/undefined.
`store.add` aborts the transaction when the key already exists; `store.put`
upserts.  Opaque JavaScript object values (owner, settings, payloads,
thumbnails) are represented by the wrapper type `JObj`; a present `JObj` is
always truthy.
-/

namespace Webeditor

/-- Opaque JavaScript object value (owner blobs, settings objects, asset
payloads, thumbnails).  The `tag` only serves to compare such values; as a
JavaScript object it is always truthy. -/
structure JObj where
  tag : String
deriving DecidableEq, Repr

/-- String constants appearing in the source. -/
def untitledProject : String := "Untitled Project"

def untitledAsset : String := "Untitled Asset"

def untitledScene : String := "Untitled Scene"

def masterBranch : String := "master"

def folderType : String := "folder"

def loadEvent : String := "load"

def errorEvent : String := "error"

def projectNotFoundMsg : String := "Project not found"

def assetNotFoundMsg : String := "Asset not found"

def sceneNotFoundMsg : String := "Scene not found"

/-- Default owner `\x7b id: 1, username: 'local' \x7d` from `createProject`. -/
def localOwner : JObj := { tag := "owner-id-1-username-local" }

/-- A fresh empty object literal default. -/
def emptyObj : JObj := { tag := "empty-object" }

/-- JavaScript `o || d` on an optional string: the empty string is falsy. -/
def jsOrStr (o : Option String) (d : String) : String :=
  match o with
  | some s => if s = "" then d else s
  | none => d

/-- JavaScript `o || d` on an optional number: `0` is falsy. -/
def jsOrNat (o : Option Nat) (d : Nat) : Nat :=
  match o with
  | some n => if n = 0 then d else n
  | none => d

/-- Shallow-merge helper for optional record fields: a present patch field
overrides, an absent one keeps the old value. -/
def patchOpt {α : Type} (patch old : Option α) : Option α :=
  match patch with
  | some v => some v
  | none => old

/-- Record of the `projects` object store (interface `Project`). -/
structure Project where
  id : Nat
  name : String
  description : String
  owner : JObj
  created : Nat
  modified : Nat
  isPrivate : Bool
  privateSourceAssets : Bool
  settings : JObj
  forkFrom : Option Nat
  imageUrl : Option String
  website : Option String
  tags : List String
  primaryApp : Option Nat
deriving DecidableEq, Repr

/-- Record of the `assets` object store (interface `Asset`).  `parent = none`
models the explicit `null` parent. -/
structure Asset where
  id : Nat
  projectId : Nat
  branchId : String
  name : String
  type : String
  parent : Option Nat
  file : Option JObj
  data : JObj
  created : Nat
  modified : Nat
  thumbnails : Option JObj
deriving DecidableEq, Repr

/-- Record of the `scenes` object store (interface `Scene`). -/
structure Scene where
  id : Nat
  projectId : Nat
  branchId : String
  name : String
  data : JObj
  created : Nat
  modified : Nat
deriving DecidableEq, Repr

/-- `Partial<Project>`: every field optional (`none` = absent). -/
structure ProjectData where
  id : Option Nat := none
  name : Option String := none
  description : Option String := none
  owner : Option JObj := none
  created : Option Nat := none
  modified : Option Nat := none
  isPrivate : Option Bool := none
  privateSourceAssets : Option Bool := none
  settings : Option JObj := none
  forkFrom : Option Nat := none
  imageUrl : Option String := none
  website : Option String := none
  tags : Option (List String) := none
  primaryApp : Option Nat := none
deriving Repr

/-- `Partial<Asset>`.  `parent : Option (Option Nat)` distinguishes an absent
field from an explicit `null`. -/
structure AssetData where
  id : Option Nat := none
  projectId : Option Nat := none
  branchId : Option String := none
  name : Option String := none
  type : Option String := none
  parent : Option (Option Nat) := none
  file : Option JObj := none
  data : Option JObj := none
  created : Option Nat := none
  modified : Option Nat := none
  thumbnails : Option JObj := none
deriving Repr

/-- `Partial<Scene>`. -/
structure SceneData where
  id : Option Nat := none
  projectId : Option Nat := none
  branchId : Option String := none
  name : Option String := none
  data : Option JObj := none
  created : Option Nat := none
  modified : Option Nat := none
deriving Repr

/-- The `metadata` object store: the persisted next-to-issue counter values
(`none` = no record stored under that key yet). -/
structure MetadataTable where
  nextProjectId : Option Nat := none
  nextAssetId : Option Nat := none
  nextSceneId : Option Nat := none
deriving DecidableEq, Repr

/-- State of a `LocalStorageManager`: the durable object stores plus the three
in-memory counters. -/
structure StoreState where
  projects : List Project
  assets : List Asset
  scenes : List Scene
  metadata : MetadataTable
  nextProjectId : Nat
  nextAssetId : Nat
  nextSceneId : Nat
deriving DecidableEq, Repr

/-- Counter baseline: the class fields start at 1000. -/
def baselineId : Nat := 1000

/-- A fresh manager over a fresh database. -/
def initialState : StoreState :=
  { projects := [], assets := [], scenes := [], metadata := {},
    nextProjectId := baselineId, nextAssetId := baselineId, nextSceneId := baselineId }

/-- Errors surfaced as rejected promises. -/
inductive StoreErr where
  /-- `throw new Error(...)` for a missing record on update. -/
  | notFound (msg : String)
  /-- IndexedDB `add` with an already-used key aborts the transaction. -/
  | constraint
  /-- Reading a field of `undefined` (import of a snapshot with no project). -/
  | typeError
deriving DecidableEq, Repr

/-- IndexedDB `store.add`: fails when the key is already present, otherwise
appends the record. -/
def addRec {α : Type} (key : α → Nat) (r : α) (tbl : List α) : Except StoreErr (List α) :=
  if tbl.any (fun x => key x == key r) then .error .constraint else .ok (tbl ++ [r])

/-- IndexedDB `store.put`: replaces the record with the same key, or appends. -/
def putRec {α : Type} (key : α → Nat) (r : α) (tbl : List α) : List α :=
  if tbl.any (fun x => key x == key r) then
    tbl.map (fun x => if key x == key r then r else x)
  else tbl ++ [r]

/-- IndexedDB `store.get`: the record with the given key, if any. -/
def getRec {α : Type} (key : α → Nat) (i : Nat) (tbl : List α) : Option α :=
  tbl.find? (fun x => key x == i)

/-- `saveMetadata`: writes all three in-memory counters to the metadata store. -/
def saveMetadata (s : StoreState) : StoreState :=
  { s with metadata :=
      { nextProjectId := some s.nextProjectId,
        nextAssetId := some s.nextAssetId,
        nextSceneId := some s.nextSceneId } }

/-- Re-initialization after discarding in-memory state: a fresh manager starts
its counters at the baseline and `loadMetadata` overwrites each one from the
metadata store when a record exists (the durable object stores persist). -/
def restart (s : StoreState) : StoreState :=
  { s with
    nextProjectId := s.metadata.nextProjectId.getD baselineId,
    nextAssetId := s.metadata.nextAssetId.getD baselineId,
    nextSceneId := s.metadata.nextSceneId.getD baselineId }

/-- The full `Project` record built by `createProject` from partial data. -/
def buildProject (pid now : Nat) (d : ProjectData) : Project :=
  { id := pid,
    name := jsOrStr d.name untitledProject,
    description := jsOrStr d.description "",
    owner := d.owner.getD localOwner,
    created := now,
    modified := now,
    isPrivate := d.isPrivate.getD false,
    privateSourceAssets := d.privateSourceAssets.getD false,
    settings := d.settings.getD emptyObj,
    forkFrom := d.forkFrom,
    imageUrl := d.imageUrl,
    website := d.website,
    tags := d.tags.getD [],
    primaryApp := d.primaryApp }

/-- `createProject`: issues the next project id (post-increment), builds the
record with both timestamps at the current instant, queues the `add`, persists
the counters via `saveMetadata`, and resolves with the record (or rejects if
the `add` transaction fails; the counters are persisted regardless). -/
def createProject (now : Nat) (d : ProjectData) (s : StoreState) :
    Except StoreErr Project × StoreState :=
  let p := buildProject s.nextProjectId now d
  let s1 := saveMetadata { s with nextProjectId := s.nextProjectId + 1 }
  match addRec Project.id p s1.projects with
  | .error e => (.error e, s1)
  | .ok tbl => (.ok p, { s1 with projects := tbl })

/-- `getProject`: resolves with the record or `none`; never rejects for a
missing id. -/
def getProject (pid : Nat) (s : StoreState) : Option Project :=
  getRec Project.id pid s.projects

/-- The record produced by `updateProject`'s spread merge
`\x7b ...project, ...data, id: projectId, modified: now \x7d`.  Every present
patch field overrides — including `created` — while `id` and `modified` are
re-imposed after the spread. -/
def mergeProject (p : Project) (d : ProjectData) (pid now : Nat) : Project :=
  { id := pid,
    name := d.name.getD p.name,
    description := d.description.getD p.description,
    owner := d.owner.getD p.owner,
    created := d.created.getD p.created,
    modified := now,
    isPrivate := d.isPrivate.getD p.isPrivate,
    privateSourceAssets := d.privateSourceAssets.getD p.privateSourceAssets,
    settings := d.settings.getD p.settings,
    forkFrom := patchOpt d.forkFrom p.forkFrom,
    imageUrl := patchOpt d.imageUrl p.imageUrl,
    website := patchOpt d.website p.website,
    tags := d.tags.getD p.tags,
    primaryApp := patchOpt d.primaryApp p.primaryApp }

/-- `updateProject`: rejects with `Project not found` for a missing id,
otherwise `put`s the merged record. -/
def updateProject (now pid : Nat) (d : ProjectData) (s : StoreState) :
    Except StoreErr Project × StoreState :=
  match getProject pid s with
  | none => (.error (.notFound projectNotFoundMsg), s)
  | some p =>
    let u := mergeProject p d pid now
    (.ok u, { s with projects := putRec Project.id u s.projects })

/-- `deleteProject`: one transaction deletes the project record and cursors the
`projectId` index of the assets and scenes stores, deleting every match. -/
def deleteProject (pid : Nat) (s : StoreState) : StoreState :=
  { s with
    projects := s.projects.filter (fun p => p.id != pid),
    assets := s.assets.filter (fun a => a.projectId != pid),
    scenes := s.scenes.filter (fun c => c.projectId != pid) }

/-- `listProjects`: all records of the projects store. -/
def listProjects (s : StoreState) : List Project :=
  s.projects

/-- The full `Asset` record built by `createAsset`: the id is always freshly
issued (any id in the partial data is ignored), `projectId` defaults to `0`
through `||`, `parent` keeps `0` and `null` through `??`. -/
def buildAsset (aid now : Nat) (d : AssetData) : Asset :=
  { id := aid,
    projectId := jsOrNat d.projectId 0,
    branchId := jsOrStr d.branchId masterBranch,
    name := jsOrStr d.name untitledAsset,
    type := jsOrStr d.type folderType,
    parent := d.parent.getD none,
    file := d.file,
    data := d.data.getD emptyObj,
    created := now,
    modified := now,
    thumbnails := d.thumbnails }

/-- `createAsset`. -/
def createAsset (now : Nat) (d : AssetData) (s : StoreState) :
    Except StoreErr Asset × StoreState :=
  let a := buildAsset s.nextAssetId now d
  let s1 := saveMetadata { s with nextAssetId := s.nextAssetId + 1 }
  match addRec Asset.id a s1.assets with
  | .error e => (.error e, s1)
  | .ok tbl => (.ok a, { s1 with assets := tbl })

/-- `getAsset`. -/
def getAsset (aid : Nat) (s : StoreState) : Option Asset :=
  getRec Asset.id aid s.assets

/-- The record produced by `updateAsset`'s spread merge. -/
def mergeAsset (a : Asset) (d : AssetData) (aid now : Nat) : Asset :=
  { id := aid,
    projectId := d.projectId.getD a.projectId,
    branchId := d.branchId.getD a.branchId,
    name := d.name.getD a.name,
    type := d.type.getD a.type,
    parent := d.parent.getD a.parent,
    file := patchOpt d.file a.file,
    data := d.data.getD a.data,
    created := d.created.getD a.created,
    modified := now,
    thumbnails := patchOpt d.thumbnails a.thumbnails }

/-- `updateAsset`. -/
def updateAsset (now aid : Nat) (d : AssetData) (s : StoreState) :
    Except StoreErr Asset × StoreState :=
  match getAsset aid s with
  | none => (.error (.notFound assetNotFoundMsg), s)
  | some a =>
    let u := mergeAsset a d aid now
    (.ok u, { s with assets := putRec Asset.id u s.assets })

/-- `deleteAsset`: removes only the one record (no cascade to children). -/
def deleteAsset (aid : Nat) (s : StoreState) : StoreState :=
  { s with assets := s.assets.filter (fun a => a.id != aid) }

/-- `listAssets`: all assets of the project via the `projectId` index, then an
in-memory branch filter — skipped when the branch argument is absent or the
empty string (JavaScript `if (branchId)`). -/
def listAssets (pid : Nat) (branchId : Option String) (s : StoreState) : List Asset :=
  let results := s.assets.filter (fun a => a.projectId == pid)
  match branchId with
  | some b => if b = "" then results else results.filter (fun a => a.branchId == b)
  | none => results

/-- The full `Scene` record built by `createScene`; the id is always freshly
issued. -/
def buildScene (cid now : Nat) (d : SceneData) : Scene :=
  { id := cid,
    projectId := jsOrNat d.projectId 0,
    branchId := jsOrStr d.branchId masterBranch,
    name := jsOrStr d.name untitledScene,
    data := d.data.getD emptyObj,
    created := now,
    modified := now }

/-- `createScene`. -/
def createScene (now : Nat) (d : SceneData) (s : StoreState) :
    Except StoreErr Scene × StoreState :=
  let c := buildScene s.nextSceneId now d
  let s1 := saveMetadata { s with nextSceneId := s.nextSceneId + 1 }
  match addRec Scene.id c s1.scenes with
  | .error e => (.error e, s1)
  | .ok tbl => (.ok c, { s1 with scenes := tbl })

/-- `getScene`. -/
def getScene (cid : Nat) (s : StoreState) : Option Scene :=
  getRec Scene.id cid s.scenes

/-- The record produced by `updateScene`'s spread merge. -/
def mergeScene (c : Scene) (d : SceneData) (cid now : Nat) : Scene :=
  { id := cid,
    projectId := d.projectId.getD c.projectId,
    branchId := d.branchId.getD c.branchId,
    name := d.name.getD c.name,
    data := d.data.getD c.data,
    created := d.created.getD c.created,
    modified := now }

/-- `updateScene`. -/
def updateScene (now cid : Nat) (d : SceneData) (s : StoreState) :
    Except StoreErr Scene × StoreState :=
  match getScene cid s with
  | none => (.error (.notFound sceneNotFoundMsg), s)
  | some c =>
    let u := mergeScene c d cid now
    (.ok u, { s with scenes := putRec Scene.id u s.scenes })

/-- `deleteScene`. -/
def deleteScene (cid : Nat) (s : StoreState) : StoreState :=
  { s with scenes := s.scenes.filter (fun c => c.id != cid) }

/-- `listScenes`. -/
def listScenes (pid : Nat) (branchId : Option String) (s : StoreState) : List Scene :=
  let results := s.scenes.filter (fun c => c.projectId == pid)
  match branchId with
  | some b => if b = "" then results else results.filter (fun c => c.branchId == b)
  | none => results

/-- `clearAll`: empties every store (metadata included) and resets the three
in-memory counters to the baseline. -/
def clearAll (_s : StoreState) : StoreState :=
  initialState

/-- The snapshot assembled by `exportProject`: `project` is the (possibly
absent) record, `assets` and `scenes` are the project's records across all
branches. -/
structure Snapshot where
  project : Option Project
  assets : Option (List Asset)
  scenes : Option (List Scene)
  exportedAt : Nat
deriving DecidableEq, Repr

/-- `exportProject`. -/
def exportProject (now pid : Nat) (s : StoreState) : Snapshot :=
  { project := getProject pid s,
    assets := some (listAssets pid none s),
    scenes := some (listScenes pid none s),
    exportedAt := now }

/-- A full `Project` record used as `Partial<Project>` (what
`createProject(data.project)` receives during import). -/
def Project.toData (p : Project) : ProjectData :=
  { id := some p.id,
    name := some p.name,
    description := some p.description,
    owner := some p.owner,
    created := some p.created,
    modified := some p.modified,
    isPrivate := some p.isPrivate,
    privateSourceAssets := some p.privateSourceAssets,
    settings := some p.settings,
    forkFrom := p.forkFrom,
    imageUrl := p.imageUrl,
    website := p.website,
    tags := some p.tags,
    primaryApp := p.primaryApp }

/-- A full `Asset` record used as `Partial<Asset>` during import. -/
def Asset.toData (a : Asset) : AssetData :=
  { id := some a.id,
    projectId := some a.projectId,
    branchId := some a.branchId,
    name := some a.name,
    type := some a.type,
    parent := some a.parent,
    file := a.file,
    data := some a.data,
    created := some a.created,
    modified := some a.modified,
    thumbnails := a.thumbnails }

/-- A full `Scene` record used as `Partial<Scene>` during import. -/
def Scene.toData (c : Scene) : SceneData :=
  { id := some c.id,
    projectId := some c.projectId,
    branchId := some c.branchId,
    name := some c.name,
    data := some c.data,
    created := some c.created,
    modified := some c.modified }

/-- The import loop over `snapshot.assets`: each record is passed to
`createAsset` with `projectId` overwritten to the new project's id; a rejection
stops the loop with the partial state kept. -/
def importAssets (now pid : Nat) : List Asset → StoreState → Except StoreErr Unit × StoreState
  | [], s => (.ok (), s)
  | a :: rest, s =>
    match createAsset now { a.toData with projectId := some pid } s with
    | (.error e, s1) => (.error e, s1)
    | (.ok _, s1) => importAssets now pid rest s1

/-- The import loop over `snapshot.scenes`. -/
def importScenes (now pid : Nat) : List Scene → StoreState → Except StoreErr Unit × StoreState
  | [], s => (.ok (), s)
  | c :: rest, s =>
    match createScene now { c.toData with projectId := some pid } s with
    | (.error e, s1) => (.error e, s1)
    | (.ok _, s1) => importScenes now pid rest s1

/-- `importProject`: creates a new project from `snapshot.project` (a missing
project makes the field accesses inside `createProject` throw), then replays
the snapshot's assets and scenes with `projectId` remapped; missing arrays are
skipped. -/
def importProject (now : Nat) (snap : Snapshot) (s : StoreState) :
    Except StoreErr Project × StoreState :=
  match snap.project with
  | none => (.error .typeError, s)
  | some p =>
    match createProject now p.toData s with
    | (.error e, s1) => (.error e, s1)
    | (.ok proj, s1) =>
      match importAssets now proj.id (snap.assets.getD []) s1 with
      | (.error e, s2) => (.error e, s2)
      | (.ok _, s2) =>
        match importScenes now proj.id (snap.scenes.getD []) s2 with
        | (.error e, s3) => (.error e, s3)
        | (.ok _, s3) => (.ok proj, s3)

/-- Projection of a settled promise onto its resolved value. -/
def resultOk {ε α : Type} : Except ε α → Option α
  | .ok a => some a
  | .error _ => none

/-- The records that the import loop appends to the assets store: each snapshot
asset is rebuilt by `createAsset` with a freshly issued sequential id and the
new project's id, its original id ignored. -/
def importedAssetRecords (now pid : Nat) : Nat → List Asset → List Asset
  | _, [] => []
  | aid0, a :: rest =>
    buildAsset aid0 now { a.toData with projectId := some pid } ::
      importedAssetRecords now pid (aid0 + 1) rest

/-- The records that the import loop appends to the scenes store. -/
def importedSceneRecords (now pid : Nat) : Nat → List Scene → List Scene
  | _, [] => []
  | cid0, c :: rest =>
    buildScene cid0 now { c.toData with projectId := some pid } ::
      importedSceneRecords now pid (cid0 + 1) rest

/-- A sequence of `createProject` calls, returning the ids issued in order
(the counter is post-incremented and persisted on every call, so the issued id
is the pre-call counter value). -/
def createProjectsSeq (now : Nat) : List ProjectData → StoreState → List Nat × StoreState
  | [], s => ([], s)
  | d :: rest, s =>
    let r := createProject now d s
    let r2 := createProjectsSeq now rest r.2
    (s.nextProjectId :: r2.1, r2.2)

/-- A sequence of `createAsset` calls. -/
def createAssetsSeq (now : Nat) : List AssetData → StoreState → List Nat × StoreState
  | [], s => ([], s)
  | d :: rest, s =>
    let r := createAsset now d s
    let r2 := createAssetsSeq now rest r.2
    (s.nextAssetId :: r2.1, r2.2)

/-- A sequence of `createScene` calls. -/
def createScenesSeq (now : Nat) : List SceneData → StoreState → List Nat × StoreState
  | [], s => ([], s)
  | d :: rest, s =>
    let r := createScene now d s
    let r2 := createScenesSeq now rest r.2
    (s.nextSceneId :: r2.1, r2.2)

/-- The state-changing calls of the public storage API (reads are identities on
the state and are omitted). -/
inductive Op where
  | createProject (now : Nat) (d : ProjectData)
  | updateProject (now pid : Nat) (d : ProjectData)
  | deleteProject (pid : Nat)
  | createAsset (now : Nat) (d : AssetData)
  | updateAsset (now aid : Nat) (d : AssetData)
  | deleteAsset (aid : Nat)
  | createScene (now : Nat) (d : SceneData)
  | updateScene (now cid : Nat) (d : SceneData)
  | deleteScene (cid : Nat)
  | importProject (now : Nat) (snap : Snapshot)
  | clearAll
  | restart

/-- Effect of one API call on the manager state. -/
def Op.apply : Op → StoreState → StoreState
  | .createProject now d, s => (Webeditor.createProject now d s).2
  | .updateProject now pid d, s => (Webeditor.updateProject now pid d s).2
  | .deleteProject pid, s => Webeditor.deleteProject pid s
  | .createAsset now d, s => (Webeditor.createAsset now d s).2
  | .updateAsset now aid d, s => (Webeditor.updateAsset now aid d s).2
  | .deleteAsset aid, s => Webeditor.deleteAsset aid s
  | .createScene now d, s => (Webeditor.createScene now d s).2
  | .updateScene now cid d, s => (Webeditor.updateScene now cid d s).2
  | .deleteScene cid, s => Webeditor.deleteScene cid s
  | .importProject now snap, s => (Webeditor.importProject now snap s).2
  | .clearAll, s => Webeditor.clearAll s
  | .restart, s => Webeditor.restart s

/-- Whether the call is the bulk wipe that resets the counters to baseline. -/
def Op.isClear : Op → Bool
  | .clearAll => true
  | _ => false

/-- Effect of a sequence of API calls. -/
def applyOps (ops : List Op) (s : StoreState) : StoreState :=
  ops.foldl (fun t o => o.apply t) s

/-! ### Model of the compatibility shim (`LocalAjax`) -/

/-- Settlement of the wrapped promise. -/
inductive Outcome (α : Type) where
  | ok (val : α)
  | err (reason : JObj)
deriving DecidableEq, Repr

/-- What an invoked handler receives as its second argument. -/
inductive Payload (α : Type) where
  | val (v : α)
  | err (e : JObj)
deriving DecidableEq, Repr

/-- One event emission of the adapter: the event name, the synthetic status
code, the carried payload, and the `setTimeout` delay it was scheduled with. -/
structure Emission (α : Type) where
  event : String
  status : Nat
  payload : Payload α
  delayMs : Nat
deriving DecidableEq, Repr

/-- Observable state of one `LocalAjax` instance: the stored handlers (event
name and handler identity, in subscription order), the handler invocations
performed so far, and the emissions performed so far. -/
structure AjaxState (α : Type) where
  handlers : List (String × Nat)
  calls : List (Nat × Nat × Payload α)
  emissions : List (Emission α)
deriving DecidableEq, Repr

/-- `on(event, handler)`: stores the handler; never invokes it directly. -/
def ajaxOn {α : Type} (hs : List (String × Nat)) (st : AjaxState α) : AjaxState α :=
  { st with handlers := st.handlers ++ hs }

/-- `emit(event, status, payload)`: invokes every handler currently stored for
the event, in order, and records the emission. -/
def ajaxEmit {α : Type} (em : Emission α) (st : AjaxState α) : AjaxState α :=
  { st with
    calls := st.calls ++
      (st.handlers.filter (fun h => h.1 == em.event)).map (fun h => (h.2, em.status, em.payload)),
    emissions := st.emissions ++ [em] }

/-- The single emission `execute()` schedules once the wrapped promise
settles: `setTimeout(() => emit('load', 200, result), 10)` on resolution,
`setTimeout(() => emit('error', 500, error), 10)` on rejection. -/
def settledEmission {α : Type} : Outcome α → Emission α
  | .ok v => { event := loadEvent, status := 200, payload := .val v, delayMs := 10 }
  | .err e => { event := errorEvent, status := 500, payload := .err e, delayMs := 10 }

/-- A complete round of one `LocalAjax` instance.  `pre` are the handlers
subscribed before the wrapped promise settles, `mid` those subscribed between
settlement and the delayed timeout firing, and `post` those subscribed after
the emission; the timeout fires exactly once. -/
def runLocalAjax {α : Type} (o : Outcome α) (pre mid post : List (String × Nat)) : AjaxState α :=
  ajaxOn post (ajaxEmit (settledEmission o) (ajaxOn mid (ajaxOn pre
    { handlers := [], calls := [], emissions := [] })))

/-! ### Concrete records and states used by counterexamples and witnesses -/

def demoName : String := "Demo"

def emptyName : String := ""

/-- A project record exactly as the engine itself would create it. -/
def demoProject : Project :=
  { id := 1000, name := demoName, description := "", owner := localOwner,
    created := 5, modified := 5, isPrivate := false, privateSourceAssets := false,
    settings := emptyObj, forkFrom := none, imageUrl := none, website := none,
    tags := [], primaryApp := none }

/-- An asset record exactly as the engine itself would create it. -/
def demoAsset : Asset :=
  { id := 1000, projectId := 1000, branchId := masterBranch, name := demoName,
    type := folderType, parent := none, file := none, data := emptyObj,
    created := 5, modified := 5, thumbnails := none }

/-- A scene record exactly as the engine itself would create it. -/
def demoScene : Scene :=
  { id := 1000, projectId := 1000, branchId := masterBranch, name := demoName,
    data := emptyObj, created := 5, modified := 5 }

/-- A small populated well-formed store. -/
def demoState : StoreState :=
  { projects := [demoProject], assets := [demoAsset], scenes := [demoScene],
    metadata := { nextProjectId := some 1001, nextAssetId := some 1001, nextSceneId := some 1001 },
    nextProjectId := 1001, nextAssetId := 1001, nextSceneId := 1001 }

/-- A snapshot project whose asset carries the original id 5. -/
def cxImportProject : Project :=
  { id := 1, name := demoName, description := "", owner := localOwner,
    created := 0, modified := 0, isPrivate := false, privateSourceAssets := false,
    settings := emptyObj, forkFrom := none, imageUrl := none, website := none,
    tags := [], primaryApp := none }

/-- A snapshot asset with original id 5 — an id no record of the empty target
store uses. -/
def cxImportAsset : Asset :=
  { id := 5, projectId := 1, branchId := masterBranch, name := demoName,
    type := folderType, parent := none, file := none, data := emptyObj,
    created := 0, modified := 0, thumbnails := none }

/-- The snapshot holding `cxImportProject` and the id-5 asset. -/
def cxSnapshot : Snapshot :=
  { project := some cxImportProject, assets := some [cxImportAsset],
    scenes := some [], exportedAt := 0 }

/-- A store reached through the public API in which the stored project's name
is the empty string: create, then update the name to the empty string. -/
def cxEmptyNameState : StoreState :=
  (updateProject 1 1000 { name := some emptyName }
    (createProject 0 { name := some demoName } initialState).2).2

/-! ### The engine invariant -/

/-- Counter discipline for one entity kind: every stored id is below the
in-memory counter, the persisted metadata value is exactly the in-memory
counter (or absent while the counter still sits at the baseline), and the
counter never drops below the baseline. -/
@[reducible]
def ctrOK {α : Type} (key : α → Nat) (tbl : List α) (ctr : Nat) (m : Option Nat) : Prop :=
  (∀ x ∈ tbl, key x < ctr) ∧ (m = some ctr ∨ (m = none ∧ ctr = baselineId)) ∧ baselineId ≤ ctr

/-- Well-formedness of a manager state: counter discipline for all three
entity kinds. -/
@[reducible]
def WF (s : StoreState) : Prop :=
  ctrOK Project.id s.projects s.nextProjectId s.metadata.nextProjectId ∧
  ctrOK Asset.id s.assets s.nextAssetId s.metadata.nextAssetId ∧
  ctrOK Scene.id s.scenes s.nextSceneId s.metadata.nextSceneId

theorem wf_initialState : WF initialState := by
  refine ⟨⟨?_, ?_, ?_⟩, ⟨?_, ?_, ?_⟩, ⟨?_, ?_, ?_⟩⟩ <;> simp [initialState]

/-! ### Store-primitive lemmas -/

theorem addRec_ok {α : Type} (key : α → Nat) (r : α) (tbl : List α)
    (h : ∀ x ∈ tbl, key x ≠ key r) : addRec key r tbl = .ok (tbl ++ [r]) := by
  have hany : tbl.any (fun x => key x == key r) = false := by
    simp only [List.any_eq_false, beq_iff_eq]
    exact h
  simp [addRec, hany]

theorem getRec_eq_none {α : Type} (key : α → Nat) (i : Nat) (tbl : List α)
    (h : ∀ x ∈ tbl, key x ≠ i) : getRec key i tbl = none := by
  rw [getRec, List.find?_eq_none]
  intro x hx
  simp [h x hx]

theorem getRec_some {α : Type} {key : α → Nat} {i : Nat} {tbl : List α} {r : α}
    (h : getRec key i tbl = some r) : r ∈ tbl ∧ key r = i := by
  rw [getRec] at h
  refine ⟨List.mem_of_find?_eq_some h, ?_⟩
  simpa using List.find?_some h

theorem mem_putRec {α : Type} {key : α → Nat} {r x : α} {tbl : List α}
    (h : x ∈ putRec key r tbl) : x ∈ tbl ∨ x = r := by
  rw [putRec] at h
  by_cases hc : tbl.any (fun a => key a == key r) = true
  · rw [if_pos hc] at h
    obtain ⟨a, ha, hax⟩ := List.mem_map.mp h
    by_cases hk : (key a == key r) = true
    · right; rw [if_pos hk] at hax; exact hax.symm
    · left; rw [if_neg hk] at hax; exact hax ▸ ha
  · rw [if_neg hc] at h
    rcases List.mem_append.mp h with h1 | h1
    · left; exact h1
    · right; simpa using h1

/-! ### Characterization of the create operations -/

@[simp]
theorem buildProject_id (pid now : Nat) (d : ProjectData) :
    (buildProject pid now d).id = pid := rfl

@[simp]
theorem buildAsset_id (aid now : Nat) (d : AssetData) :
    (buildAsset aid now d).id = aid := rfl

@[simp]
theorem buildScene_id (cid now : Nat) (d : SceneData) :
    (buildScene cid now d).id = cid := rfl

theorem createProject_ok (now : Nat) (d : ProjectData) (s : StoreState)
    (h : ∀ p ∈ s.projects, p.id < s.nextProjectId) :
    createProject now d s =
      (.ok (buildProject s.nextProjectId now d),
        { s with
          projects := s.projects ++ [buildProject s.nextProjectId now d],
          nextProjectId := s.nextProjectId + 1,
          metadata :=
            { nextProjectId := some (s.nextProjectId + 1),
              nextAssetId := some s.nextAssetId,
              nextSceneId := some s.nextSceneId } }) := by
  have hne : ∀ p ∈ (saveMetadata { s with nextProjectId := s.nextProjectId + 1 }).projects,
      p.id ≠ (buildProject s.nextProjectId now d).id := by
    intro p hp
    simp only [saveMetadata] at hp
    simpa using Nat.ne_of_lt (h p hp)
  rw [createProject, addRec_ok Project.id _ _ hne]
  simp [saveMetadata]

theorem createAsset_ok (now : Nat) (d : AssetData) (s : StoreState)
    (h : ∀ a ∈ s.assets, a.id < s.nextAssetId) :
    createAsset now d s =
      (.ok (buildAsset s.nextAssetId now d),
        { s with
          assets := s.assets ++ [buildAsset s.nextAssetId now d],
          nextAssetId := s.nextAssetId + 1,
          metadata :=
            { nextProjectId := some s.nextProjectId,
              nextAssetId := some (s.nextAssetId + 1),
              nextSceneId := some s.nextSceneId } }) := by
  have hne : ∀ a ∈ (saveMetadata { s with nextAssetId := s.nextAssetId + 1 }).assets,
      a.id ≠ (buildAsset s.nextAssetId now d).id := by
    intro a ha
    simp only [saveMetadata] at ha
    simpa using Nat.ne_of_lt (h a ha)
  rw [createAsset, addRec_ok Asset.id _ _ hne]
  simp [saveMetadata]

theorem createScene_ok (now : Nat) (d : SceneData) (s : StoreState)
    (h : ∀ c ∈ s.scenes, c.id < s.nextSceneId) :
    createScene now d s =
      (.ok (buildScene s.nextSceneId now d),
        { s with
          scenes := s.scenes ++ [buildScene s.nextSceneId now d],
          nextSceneId := s.nextSceneId + 1,
          metadata :=
            { nextProjectId := some s.nextProjectId,
              nextAssetId := some s.nextAssetId,
              nextSceneId := some (s.nextSceneId + 1) } }) := by
  have hne : ∀ c ∈ (saveMetadata { s with nextSceneId := s.nextSceneId + 1 }).scenes,
      c.id ≠ (buildScene s.nextSceneId now d).id := by
    intro c hc
    simp only [saveMetadata] at hc
    simpa using Nat.ne_of_lt (h c hc)
  rw [createScene, addRec_ok Scene.id _ _ hne]
  simp [saveMetadata]

theorem wf_createProject (now : Nat) (d : ProjectData) (s : StoreState) (h : WF s) :
    WF (createProject now d s).2 := by
  obtain ⟨⟨hp, _, hbp⟩, ⟨ha, hma, hba⟩, ⟨hc, hmc, hbc⟩⟩ := h
  rw [createProject_ok now d s hp]
  refine ⟨⟨?_, Or.inl rfl, ?_⟩, ⟨ha, Or.inl rfl, hba⟩, ⟨hc, Or.inl rfl, hbc⟩⟩
  · intro x hx
    rcases List.mem_append.mp hx with h1 | h1
    · exact Nat.lt_succ_of_lt (hp x h1)
    · simp only [List.mem_singleton] at h1
      subst h1
      simp
  · exact Nat.le_succ_of_le hbp

theorem wf_createAsset (now : Nat) (d : AssetData) (s : StoreState) (h : WF s) :
    WF (createAsset now d s).2 := by
  obtain ⟨⟨hp, hmp, hbp⟩, ⟨ha, _, hba⟩, ⟨hc, hmc, hbc⟩⟩ := h
  rw [createAsset_ok now d s ha]
  refine ⟨⟨hp, Or.inl rfl, hbp⟩, ⟨?_, Or.inl rfl, ?_⟩, ⟨hc, Or.inl rfl, hbc⟩⟩
  · intro x hx
    rcases List.mem_append.mp hx with h1 | h1
    · exact Nat.lt_succ_of_lt (ha x h1)
    · simp only [List.mem_singleton] at h1
      subst h1
      simp
  · exact Nat.le_succ_of_le hba

theorem wf_createScene (now : Nat) (d : SceneData) (s : StoreState) (h : WF s) :
    WF (createScene now d s).2 := by
  obtain ⟨⟨hp, hmp, hbp⟩, ⟨ha, hma, hba⟩, ⟨hc, _, hbc⟩⟩ := h
  rw [createScene_ok now d s hc]
  refine ⟨⟨hp, Or.inl rfl, hbp⟩, ⟨ha, Or.inl rfl, hba⟩, ⟨?_, Or.inl rfl, ?_⟩⟩
  · intro x hx
    rcases List.mem_append.mp hx with h1 | h1
    · exact Nat.lt_succ_of_lt (hc x h1)
    · simp only [List.mem_singleton] at h1
      subst h1
      simp
  · exact Nat.le_succ_of_le hbc

/-! ### Characterization of update, delete, restart, clear -/

@[simp]
theorem mergeProject_id (p : Project) (d : ProjectData) (pid now : Nat) :
    (mergeProject p d pid now).id = pid := rfl

@[simp]
theorem mergeAsset_id (a : Asset) (d : AssetData) (aid now : Nat) :
    (mergeAsset a d aid now).id = aid := rfl

@[simp]
theorem mergeScene_id (c : Scene) (d : SceneData) (cid now : Nat) :
    (mergeScene c d cid now).id = cid := rfl

theorem updateProject_missing (now pid : Nat) (d : ProjectData) (s : StoreState)
    (h : getProject pid s = none) :
    updateProject now pid d s = (.error (.notFound projectNotFoundMsg), s) := by
  rw [updateProject, h]

theorem updateProject_found (now pid : Nat) (d : ProjectData) (s : StoreState) (p : Project)
    (h : getProject pid s = some p) :
    updateProject now pid d s =
      (.ok (mergeProject p d pid now),
        { s with projects := putRec Project.id (mergeProject p d pid now) s.projects }) := by
  rw [updateProject, h]

theorem updateAsset_missing (now aid : Nat) (d : AssetData) (s : StoreState)
    (h : getAsset aid s = none) :
    updateAsset now aid d s = (.error (.notFound assetNotFoundMsg), s) := by
  rw [updateAsset, h]

theorem updateAsset_found (now aid : Nat) (d : AssetData) (s : StoreState) (a : Asset)
    (h : getAsset aid s = some a) :
    updateAsset now aid d s =
      (.ok (mergeAsset a d aid now),
        { s with assets := putRec Asset.id (mergeAsset a d aid now) s.assets }) := by
  rw [updateAsset, h]

theorem updateScene_missing (now cid : Nat) (d : SceneData) (s : StoreState)
    (h : getScene cid s = none) :
    updateScene now cid d s = (.error (.notFound sceneNotFoundMsg), s) := by
  rw [updateScene, h]

theorem updateScene_found (now cid : Nat) (d : SceneData) (s : StoreState) (c : Scene)
    (h : getScene cid s = some c) :
    updateScene now cid d s =
      (.ok (mergeScene c d cid now),
        { s with scenes := putRec Scene.id (mergeScene c d cid now) s.scenes }) := by
  rw [updateScene, h]

theorem wf_updateProject (now pid : Nat) (d : ProjectData) (s : StoreState) (h : WF s) :
    WF (updateProject now pid d s).2 := by
  cases hg : getProject pid s with
  | none => rw [updateProject_missing now pid d s hg]; exact h
  | some p =>
    obtain ⟨⟨hp, hmp, hbp⟩, hA, hC⟩ := h
    rw [updateProject_found now pid d s p hg]
    refine ⟨⟨?_, hmp, hbp⟩, hA, hC⟩
    intro x hx
    rcases mem_putRec hx with h1 | h1
    · exact hp x h1
    · subst h1
      obtain ⟨hmem, hid⟩ := getRec_some hg
      have hlt : pid < s.nextProjectId := hid ▸ hp p hmem
      simpa using hlt

theorem wf_updateAsset (now aid : Nat) (d : AssetData) (s : StoreState) (h : WF s) :
    WF (updateAsset now aid d s).2 := by
  cases hg : getAsset aid s with
  | none => rw [updateAsset_missing now aid d s hg]; exact h
  | some a =>
    obtain ⟨hP, ⟨ha, hma, hba⟩, hC⟩ := h
    rw [updateAsset_found now aid d s a hg]
    refine ⟨hP, ⟨?_, hma, hba⟩, hC⟩
    intro x hx
    rcases mem_putRec hx with h1 | h1
    · exact ha x h1
    · subst h1
      obtain ⟨hmem, hid⟩ := getRec_some hg
      have hlt : aid < s.nextAssetId := hid ▸ ha a hmem
      simpa using hlt

theorem wf_updateScene (now cid : Nat) (d : SceneData) (s : StoreState) (h : WF s) :
    WF (updateScene now cid d s).2 := by
  cases hg : getScene cid s with
  | none => rw [updateScene_missing now cid d s hg]; exact h
  | some c =>
    obtain ⟨hP, hA, ⟨hc, hmc, hbc⟩⟩ := h
    rw [updateScene_found now cid d s c hg]
    refine ⟨hP, hA, ⟨?_, hmc, hbc⟩⟩
    intro x hx
    rcases mem_putRec hx with h1 | h1
    · exact hc x h1
    · subst h1
      obtain ⟨hmem, hid⟩ := getRec_some hg
      have hlt : cid < s.nextSceneId := hid ▸ hc c hmem
      simpa using hlt

theorem wf_deleteProject (pid : Nat) (s : StoreState) (h : WF s) : WF (deleteProject pid s) := by
  obtain ⟨⟨hp, hmp, hbp⟩, ⟨ha, hma, hba⟩, ⟨hc, hmc, hbc⟩⟩ := h
  refine ⟨⟨?_, hmp, hbp⟩, ⟨?_, hma, hba⟩, ⟨?_, hmc, hbc⟩⟩
  · intro x hx; exact hp x (List.mem_filter.mp hx).1
  · intro x hx; exact ha x (List.mem_filter.mp hx).1
  · intro x hx; exact hc x (List.mem_filter.mp hx).1

theorem wf_deleteAsset (aid : Nat) (s : StoreState) (h : WF s) : WF (deleteAsset aid s) := by
  obtain ⟨hP, ⟨ha, hma, hba⟩, hC⟩ := h
  refine ⟨hP, ⟨?_, hma, hba⟩, hC⟩
  intro x hx; exact ha x (List.mem_filter.mp hx).1

theorem wf_deleteScene (cid : Nat) (s : StoreState) (h : WF s) : WF (deleteScene cid s) := by
  obtain ⟨hP, hA, ⟨hc, hmc, hbc⟩⟩ := h
  refine ⟨hP, hA, ⟨?_, hmc, hbc⟩⟩
  intro x hx; exact hc x (List.mem_filter.mp hx).1

/-- On a well-formed state, re-initialization restores exactly the counters the
manager already had: the persisted next-to-issue values equal the in-memory
ones because they are written back after every issuance. -/
theorem restart_of_wf (s : StoreState) (h : WF s) : restart s = s := by
  obtain ⟨⟨_, hmp, _⟩, ⟨_, hma, _⟩, ⟨_, hmc, _⟩⟩ := h
  cases s with
  | mk projects assets scenes metadata np na ns =>
    simp only at hmp hma hmc
    rcases hmp with h1 | ⟨h1, h2⟩ <;> rcases hma with g1 | ⟨g1, g2⟩ <;>
      rcases hmc with k1 | ⟨k1, k2⟩ <;>
      simp_all [restart]

theorem wf_restart (s : StoreState) (h : WF s) : WF (restart s) := by
  rw [restart_of_wf s h]; exact h

theorem wf_clearAll (s : StoreState) : WF (clearAll s) := wf_initialState

/-! ### Characterization of import -/

@[simp]
theorem importedAssetRecords_length (now pid aid0 : Nat) (as : List Asset) :
    (importedAssetRecords now pid aid0 as).length = as.length := by
  induction as generalizing aid0 with
  | nil => rfl
  | cons a rest ih => simp [importedAssetRecords, ih]

@[simp]
theorem importedSceneRecords_length (now pid cid0 : Nat) (cs : List Scene) :
    (importedSceneRecords now pid cid0 cs).length = cs.length := by
  induction cs generalizing cid0 with
  | nil => rfl
  | cons c rest ih => simp [importedSceneRecords, ih]

theorem importedAssetRecords_mem (now pid : Nat) {aid0 : Nat} {as : List Asset} {x : Asset}
    (hx : x ∈ importedAssetRecords now pid aid0 as) (hpid : pid ≠ 0) :
    x.projectId = pid ∧ aid0 ≤ x.id := by
  induction as generalizing aid0 with
  | nil => cases hx
  | cons a rest ih =>
    rcases List.mem_cons.mp hx with h1 | h1
    · subst h1
      refine ⟨?_, Nat.le_refl _⟩
      simp [buildAsset, jsOrNat, hpid]
    · obtain ⟨h2, h3⟩ := ih h1
      exact ⟨h2, Nat.le_of_succ_le h3⟩

theorem importedSceneRecords_mem (now pid : Nat) {cid0 : Nat} {cs : List Scene} {x : Scene}
    (hx : x ∈ importedSceneRecords now pid cid0 cs) (hpid : pid ≠ 0) :
    x.projectId = pid ∧ cid0 ≤ x.id := by
  induction cs generalizing cid0 with
  | nil => cases hx
  | cons c rest ih =>
    rcases List.mem_cons.mp hx with h1 | h1
    · subst h1
      refine ⟨?_, Nat.le_refl _⟩
      simp [buildScene, jsOrNat, hpid]
    · obtain ⟨h2, h3⟩ := ih h1
      exact ⟨h2, Nat.le_of_succ_le h3⟩

theorem importAssets_cons (now pid : Nat) (a : Asset) (rest : List Asset) (s : StoreState)
    (h : ∀ x ∈ s.assets, x.id < s.nextAssetId) :
    importAssets now pid (a :: rest) s =
      importAssets now pid rest
        { s with
          assets := s.assets ++ [buildAsset s.nextAssetId now { a.toData with projectId := some pid }],
          nextAssetId := s.nextAssetId + 1,
          metadata :=
            { nextProjectId := some s.nextProjectId,
              nextAssetId := some (s.nextAssetId + 1),
              nextSceneId := some s.nextSceneId } } := by
  rw [importAssets, createAsset_ok now _ s h]

theorem importScenes_cons (now pid : Nat) (c : Scene) (rest : List Scene) (s : StoreState)
    (h : ∀ x ∈ s.scenes, x.id < s.nextSceneId) :
    importScenes now pid (c :: rest) s =
      importScenes now pid rest
        { s with
          scenes := s.scenes ++ [buildScene s.nextSceneId now { c.toData with projectId := some pid }],
          nextSceneId := s.nextSceneId + 1,
          metadata :=
            { nextProjectId := some s.nextProjectId,
              nextAssetId := some s.nextAssetId,
              nextSceneId := some (s.nextSceneId + 1) } } := by
  rw [importScenes, createScene_ok now _ s h]

theorem importAssets_spec (now pid : Nat) (as : List Asset) (s : StoreState) (h : WF s) :
    (importAssets now pid as s).1 = .ok () ∧
    (importAssets now pid as s).2.assets =
      s.assets ++ importedAssetRecords now pid s.nextAssetId as ∧
    (importAssets now pid as s).2.projects = s.projects ∧
    (importAssets now pid as s).2.scenes = s.scenes ∧
    (importAssets now pid as s).2.nextProjectId = s.nextProjectId ∧
    (importAssets now pid as s).2.nextAssetId = s.nextAssetId + as.length ∧
    (importAssets now pid as s).2.nextSceneId = s.nextSceneId ∧
    WF (importAssets now pid as s).2 := by
  induction as generalizing s with
  | nil =>
    refine ⟨rfl, by simp [importAssets, importedAssetRecords], rfl, rfl, rfl, rfl, rfl, ?_⟩
    simpa [importAssets] using h
  | cons a rest ih =>
    have ha := h.2.1.1
    have hS : WF ((createAsset now { a.toData with projectId := some pid } s).2) :=
      wf_createAsset now _ s h
    rw [createAsset_ok now _ s ha] at hS
    rw [importAssets_cons now pid a rest s ha]
    obtain ⟨i1, i2, i3, i4, i5, i6, i7, i8⟩ := ih _ hS
    refine ⟨i1, ?_, i3, i4, i5, ?_, i7, i8⟩
    · rw [i2]
      simp [importedAssetRecords, List.append_assoc]
    · rw [i6]
      simp
      omega

theorem importScenes_spec (now pid : Nat) (cs : List Scene) (s : StoreState) (h : WF s) :
    (importScenes now pid cs s).1 = .ok () ∧
    (importScenes now pid cs s).2.scenes =
      s.scenes ++ importedSceneRecords now pid s.nextSceneId cs ∧
    (importScenes now pid cs s).2.projects = s.projects ∧
    (importScenes now pid cs s).2.assets = s.assets ∧
    (importScenes now pid cs s).2.nextProjectId = s.nextProjectId ∧
    (importScenes now pid cs s).2.nextSceneId = s.nextSceneId + cs.length ∧
    (importScenes now pid cs s).2.nextAssetId = s.nextAssetId ∧
    WF (importScenes now pid cs s).2 := by
  induction cs generalizing s with
  | nil =>
    refine ⟨rfl, by simp [importScenes, importedSceneRecords], rfl, rfl, rfl, rfl, rfl, ?_⟩
    simpa [importScenes] using h
  | cons c rest ih =>
    have hc := h.2.2.1
    have hS : WF ((createScene now { c.toData with projectId := some pid } s).2) :=
      wf_createScene now _ s h
    rw [createScene_ok now _ s hc] at hS
    rw [importScenes_cons now pid c rest s hc]
    obtain ⟨i1, i2, i3, i4, i5, i6, i7, i8⟩ := ih _ hS
    refine ⟨i1, ?_, i3, i4, i5, ?_, i7, i8⟩
    · rw [i2]
      simp [importedSceneRecords, List.append_assoc]
    · rw [i6]
      simp
      omega

theorem importProject_spec (now t : Nat) (P : Project) (as : List Asset) (cs : List Scene)
    (s : StoreState) (h : WF s) :
    (importProject now { project := some P, assets := some as, scenes := some cs, exportedAt := t } s).1 =
      .ok (buildProject s.nextProjectId now P.toData) ∧
    (importProject now { project := some P, assets := some as, scenes := some cs, exportedAt := t } s).2.projects =
      s.projects ++ [buildProject s.nextProjectId now P.toData] ∧
    (importProject now { project := some P, assets := some as, scenes := some cs, exportedAt := t } s).2.assets =
      s.assets ++ importedAssetRecords now s.nextProjectId s.nextAssetId as ∧
    (importProject now { project := some P, assets := some as, scenes := some cs, exportedAt := t } s).2.scenes =
      s.scenes ++ importedSceneRecords now s.nextProjectId s.nextSceneId cs ∧
    WF (importProject now { project := some P, assets := some as, scenes := some cs, exportedAt := t } s).2 ∧
    (importProject now { project := some P, assets := some as, scenes := some cs, exportedAt := t } s).2.nextProjectId =
      s.nextProjectId + 1 ∧
    (importProject now { project := some P, assets := some as, scenes := some cs, exportedAt := t } s).2.nextAssetId =
      s.nextAssetId + as.length ∧
    (importProject now { project := some P, assets := some as, scenes := some cs, exportedAt := t } s).2.nextSceneId =
      s.nextSceneId + cs.length := by
  have hp := h.1.1
  have hcreate := createProject_ok now P.toData s hp
  have hWF1 : WF (createProject now P.toData s).2 := wf_createProject now P.toData s h
  rw [hcreate] at hWF1
  obtain ⟨a1, a2, a3, a4, a5, a6, a7, a8⟩ := importAssets_spec now s.nextProjectId as _ hWF1
  rcases hA : importAssets now s.nextProjectId as
      { s with
        projects := s.projects ++ [buildProject s.nextProjectId now P.toData],
        nextProjectId := s.nextProjectId + 1,
        metadata :=
          { nextProjectId := some (s.nextProjectId + 1),
            nextAssetId := some s.nextAssetId,
            nextSceneId := some s.nextSceneId } } with ⟨rA, s2⟩
  rw [hA] at a1 a2 a3 a4 a5 a6 a7 a8
  simp only at a1 a2 a3 a4 a5 a6 a7 a8
  subst a1
  obtain ⟨b1, b2, b3, b4, b5, b6, b7, b8⟩ := importScenes_spec now s.nextProjectId cs s2 a8
  rcases hB : importScenes now s.nextProjectId cs s2 with ⟨rB, s3⟩
  rw [hB] at b1 b2 b3 b4 b5 b6 b7 b8
  simp only at b1 b2 b3 b4 b5 b6 b7 b8
  subst b1
  refine ⟨?_, ?_, ?_, ?_, ?_, ?_, ?_, ?_⟩ <;>
    simp only [importProject, hcreate, buildProject_id, Option.getD_some, hA, hB]
  · rw [b3, a3]
  · rw [b4, a2]
  · rw [b2, a4, a7]
  · exact b8
  · rw [b5, a5]
  · rw [b7, a6]
  · rw [b6, a7]

/-- `importProject` only reads the asset/scene arrays through `getD []`, so a
snapshot with absent arrays behaves like one with empty arrays. -/
theorem importProject_norm (now : Nat) (op : Option Project) (oas : Option (List Asset))
    (ocs : Option (List Scene)) (t : Nat) (s : StoreState) :
    importProject now { project := op, assets := oas, scenes := ocs, exportedAt := t } s =
      importProject now
        { project := op, assets := some (oas.getD []), scenes := some (ocs.getD []),
          exportedAt := t } s := by
  cases op <;> cases oas <;> cases ocs <;> rfl

/-- Contract of one `createProject` call on a well-formed state: it succeeds,
the record carries the current counter value as id (hence an id no stored
record uses), and both timestamps are the same instant. -/
theorem createProject_contract (s : StoreState) (h : WF s) (now : Nat) (d : ProjectData) :
    ∃ p, (createProject now d s).1 = .ok p ∧ p.created = p.modified ∧
      (∀ q ∈ s.projects, q.id ≠ p.id) ∧ p.id = s.nextProjectId := by
  rw [createProject_ok now d s h.1.1]
  refine ⟨buildProject s.nextProjectId now d, rfl, rfl, ?_, rfl⟩
  intro q hq
  have := h.1.1 q hq
  simp only [buildProject_id]
  omega

/-- Contract of one `createAsset` call on a well-formed state. -/
theorem createAsset_contract (s : StoreState) (h : WF s) (now : Nat) (d : AssetData) :
    ∃ a, (createAsset now d s).1 = .ok a ∧ a.created = a.modified ∧
      (∀ q ∈ s.assets, q.id ≠ a.id) ∧ a.id = s.nextAssetId := by
  rw [createAsset_ok now d s h.2.1.1]
  refine ⟨buildAsset s.nextAssetId now d, rfl, rfl, ?_, rfl⟩
  intro q hq
  have := h.2.1.1 q hq
  simp only [buildAsset_id]
  omega

/-- Contract of one `createScene` call on a well-formed state. -/
theorem createScene_contract (s : StoreState) (h : WF s) (now : Nat) (d : SceneData) :
    ∃ c, (createScene now d s).1 = .ok c ∧ c.created = c.modified ∧
      (∀ q ∈ s.scenes, q.id ≠ c.id) ∧ c.id = s.nextSceneId := by
  rw [createScene_ok now d s h.2.2.1]
  refine ⟨buildScene s.nextSceneId now d, rfl, rfl, ?_, rfl⟩
  intro q hq
  have := h.2.2.1 q hq
  simp only [buildScene_id]
  omega

/-- Every API call other than `clearAll` preserves well-formedness and never
decreases any of the three counters. -/
theorem wf_mono_apply (o : Op) (s : StoreState) (h : WF s) (hno : o.isClear = false) :
    WF (o.apply s) ∧ s.nextProjectId ≤ (o.apply s).nextProjectId ∧
      s.nextAssetId ≤ (o.apply s).nextAssetId ∧ s.nextSceneId ≤ (o.apply s).nextSceneId := by
  cases o with
  | createProject now d =>
    refine ⟨wf_createProject now d s h, ?_, ?_, ?_⟩ <;>
      simp only [Op.apply] <;> rw [createProject_ok now d s h.1.1] <;> simp
  | updateProject now pid d =>
    refine ⟨wf_updateProject now pid d s h, ?_, ?_, ?_⟩ <;> simp only [Op.apply] <;>
      cases hg : getProject pid s with
      | none => rw [updateProject_missing now pid d s hg]
      | some p => rw [updateProject_found now pid d s p hg]
  | deleteProject pid =>
    exact ⟨wf_deleteProject pid s h, le_refl _, le_refl _, le_refl _⟩
  | createAsset now d =>
    refine ⟨wf_createAsset now d s h, ?_, ?_, ?_⟩ <;>
      simp only [Op.apply] <;> rw [createAsset_ok now d s h.2.1.1] <;> simp
  | updateAsset now aid d =>
    refine ⟨wf_updateAsset now aid d s h, ?_, ?_, ?_⟩ <;> simp only [Op.apply] <;>
      cases hg : getAsset aid s with
      | none => rw [updateAsset_missing now aid d s hg]
      | some a => rw [updateAsset_found now aid d s a hg]
  | deleteAsset aid =>
    exact ⟨wf_deleteAsset aid s h, le_refl _, le_refl _, le_refl _⟩
  | createScene now d =>
    refine ⟨wf_createScene now d s h, ?_, ?_, ?_⟩ <;>
      simp only [Op.apply] <;> rw [createScene_ok now d s h.2.2.1] <;> simp
  | updateScene now cid d =>
    refine ⟨wf_updateScene now cid d s h, ?_, ?_, ?_⟩ <;> simp only [Op.apply] <;>
      cases hg : getScene cid s with
      | none => rw [updateScene_missing now cid d s hg]
      | some c => rw [updateScene_found now cid d s c hg]
  | deleteScene cid =>
    exact ⟨wf_deleteScene cid s h, le_refl _, le_refl _, le_refl _⟩
  | importProject now snap =>
    rcases snap with ⟨op, oas, ocs, t⟩
    cases op with
    | none => exact ⟨h, le_refl _, le_refl _, le_refl _⟩
    | some p =>
      have hn := importProject_norm now (some p) oas ocs t s
      obtain ⟨i1, i2, i3, i4, i5, c1, c2, c3⟩ :=
        importProject_spec now t p (oas.getD []) (ocs.getD []) s h
      refine ⟨?_, ?_, ?_, ?_⟩
      · show WF (importProject now { project := some p, assets := oas, scenes := ocs, exportedAt := t } s).2
        rw [hn]
        exact i5
      · show s.nextProjectId ≤
          (importProject now { project := some p, assets := oas, scenes := ocs, exportedAt := t } s).2.nextProjectId
        rw [hn, c1]
        omega
      · show s.nextAssetId ≤
          (importProject now { project := some p, assets := oas, scenes := ocs, exportedAt := t } s).2.nextAssetId
        rw [hn, c2]
        omega
      · show s.nextSceneId ≤
          (importProject now { project := some p, assets := oas, scenes := ocs, exportedAt := t } s).2.nextSceneId
        rw [hn, c3]
        omega
  | clearAll => simp [Op.isClear] at hno
  | restart =>
    have hre : Op.restart.apply s = s := restart_of_wf s h
    rw [hre]
    exact ⟨h, le_refl _, le_refl _, le_refl _⟩

/-- Sequences of clear-free API calls preserve well-formedness and never
decrease the counters. -/
theorem wf_mono_applyOps (ops : List Op) (s : StoreState) (h : WF s)
    (hno : ∀ o ∈ ops, o.isClear = false) :
    WF (applyOps ops s) ∧ s.nextProjectId ≤ (applyOps ops s).nextProjectId ∧
      s.nextAssetId ≤ (applyOps ops s).nextAssetId ∧
      s.nextSceneId ≤ (applyOps ops s).nextSceneId := by
  induction ops generalizing s with
  | nil => exact ⟨h, le_refl _, le_refl _, le_refl _⟩
  | cons o rest ih =>
    obtain ⟨w1, w2, w3, w4⟩ := wf_mono_apply o s h (hno o (by simp))
    obtain ⟨v1, v2, v3, v4⟩ := ih (o.apply s) w1 (fun x hx => hno x (by simp [hx]))
    exact ⟨v1, le_trans w2 v2, le_trans w3 v3, le_trans w4 v4⟩

/-! ### Claim theorems -/

/-- Claim C6: after the cascading `deleteProject(P)`, the project record is
gone and listing assets or scenes by that project id returns the empty list
for every branch argument — every matching record was removed in the same
logical operation. -/
theorem claim_C6_cascade_delete (s : StoreState) (pid : Nat) (b : Option String) :
    getProject pid (deleteProject pid s) = none ∧
    listAssets pid b (deleteProject pid s) = [] ∧
    listScenes pid b (deleteProject pid s) = [] := by
  refine ⟨?_, ?_, ?_⟩
  · have : ∀ p ∈ (deleteProject pid s).projects, p.id ≠ pid := by
      intro p hp
      have := (List.mem_filter.mp hp).2
      simpa using this
    exact getRec_eq_none Project.id pid _ this
  · have hres : (deleteProject pid s).assets.filter (fun a => a.projectId == pid) = [] := by
      rw [List.filter_eq_nil_iff]
      intro a ha
      have := (List.mem_filter.mp ha).2
      simpa using this
    simp only [listAssets]
    cases b with
    | none => exact hres
    | some bb =>
      by_cases hbb : bb = "" <;> simp [hbb, hres]
  · have hres : (deleteProject pid s).scenes.filter (fun c => c.projectId == pid) = [] := by
      rw [List.filter_eq_nil_iff]
      intro c hc
      have := (List.mem_filter.mp hc).2
      simpa using this
    simp only [listScenes]
    cases b with
    | none => exact hres
    | some bb =>
      by_cases hbb : bb = "" <;> simp [hbb, hres]

/-- Claim C7: for an id absent from the store, Get resolves with the absence
value without rejecting, and Update rejects with the NotFound error while
leaving the state untouched — for all three entity kinds. -/
theorem claim_C7_missing_id (s : StoreState) (x now : Nat)
    (hp : ∀ p ∈ s.projects, p.id ≠ x)
    (ha : ∀ a ∈ s.assets, a.id ≠ x)
    (hc : ∀ c ∈ s.scenes, c.id ≠ x)
    (dp : ProjectData) (da : AssetData) (dc : SceneData) :
    getProject x s = none ∧
    updateProject now x dp s = (.error (.notFound projectNotFoundMsg), s) ∧
    getAsset x s = none ∧
    updateAsset now x da s = (.error (.notFound assetNotFoundMsg), s) ∧
    getScene x s = none ∧
    updateScene now x dc s = (.error (.notFound sceneNotFoundMsg), s) := by
  have h1 : getProject x s = none := getRec_eq_none Project.id x s.projects hp
  have h2 : getAsset x s = none := getRec_eq_none Asset.id x s.assets ha
  have h3 : getScene x s = none := getRec_eq_none Scene.id x s.scenes hc
  exact ⟨h1, updateProject_missing now x dp s h1, h2, updateAsset_missing now x da s h2,
    h3, updateScene_missing now x dc s h3⟩

/-- Witness for C7 at the empty store and the absent id 42. -/
theorem claim_C7_missing_id_witness :
    getProject 42 initialState = none ∧
    updateProject 0 42 {} initialState = (.error (.notFound projectNotFoundMsg), initialState) ∧
    getAsset 42 initialState = none ∧
    updateAsset 0 42 {} initialState = (.error (.notFound assetNotFoundMsg), initialState) ∧
    getScene 42 initialState = none ∧
    updateScene 0 42 {} initialState = (.error (.notFound sceneNotFoundMsg), initialState) :=
  claim_C7_missing_id initialState 42 0 (by simp [initialState]) (by simp [initialState])
    (by simp [initialState]) {} {} {}

/-- Claim C10: `createAsset` and `createScene` perform no referential check on
`projectId`: with the field omitted (or 0), creation succeeds and persists a
record with `projectId = 0` although no project with id 0 exists. -/
theorem claim_C10_no_referential_check (s : StoreState) (h : WF s) (now : Nat)
    (h0 : getProject 0 s = none)
    (da : AssetData) (hda : da.projectId = none ∨ da.projectId = some 0)
    (dc : SceneData) (hdc : dc.projectId = none ∨ dc.projectId = some 0) :
    (∃ a, (createAsset now da s).1 = .ok a ∧ a.projectId = 0 ∧
      a ∈ (createAsset now da s).2.assets ∧ getProject 0 (createAsset now da s).2 = none) ∧
    (∃ c, (createScene now dc s).1 = .ok c ∧ c.projectId = 0 ∧
      c ∈ (createScene now dc s).2.scenes ∧ getProject 0 (createScene now dc s).2 = none) := by
  rw [createAsset_ok now da s h.2.1.1, createScene_ok now dc s h.2.2.1]
  constructor
  · refine ⟨buildAsset s.nextAssetId now da, rfl, ?_, ?_, ?_⟩
    · rcases hda with h1 | h1 <;> simp [buildAsset, jsOrNat, h1]
    · simp
    · exact h0
  · refine ⟨buildScene s.nextSceneId now dc, rfl, ?_, ?_, ?_⟩
    · rcases hdc with h1 | h1 <;> simp [buildScene, jsOrNat, h1]
    · simp
    · exact h0

/-- Witness for C10 at the empty store. -/
theorem claim_C10_no_referential_check_witness :
    (∃ a, (createAsset 0 {} initialState).1 = .ok a ∧ a.projectId = 0 ∧
      a ∈ (createAsset 0 {} initialState).2.assets ∧
      getProject 0 (createAsset 0 {} initialState).2 = none) ∧
    (∃ c, (createScene 0 {} initialState).1 = .ok c ∧ c.projectId = 0 ∧
      c ∈ (createScene 0 {} initialState).2.scenes ∧
      getProject 0 (createScene 0 {} initialState).2 = none) :=
  claim_C10_no_referential_check initialState wf_initialState 0 (by simp [initialState, getProject, getRec])
    {} (Or.inl rfl) {} (Or.inl rfl)

/-- Counterexample to C4 as stated: an update whose partial-fields argument
itself contains a `created` value overwrites the stored `created` timestamp
(the spread places the patch over the record and only `id` and `modified` are
re-imposed afterwards).  The stored project has `created = 5`; updating with a
patch carrying `created = 7` yields a record with `created = 7`. -/
theorem claim_C4_counterexample :
    (getProject 1000 demoState).map Project.created = some 5 ∧
    (resultOk (updateProject 9 1000 { created := some 7 } demoState).1).map Project.created =
      some 7 := by decide

/-- Claim C4 (amended): for every existing record and every update whose
partial-fields argument does not itself contain a `created` field, the
record's `created` timestamp is unchanged and `modified` is refreshed to the
update instant — for Projects, Assets, and Scenes. -/
theorem claim_C4_update_timestamps (s : StoreState) (now pid aid cid : Nat)
    (P : Project) (hP : getProject pid s = some P) (dp : ProjectData) (hdp : dp.created = none)
    (A : Asset) (hA : getAsset aid s = some A) (da : AssetData) (hda : da.created = none)
    (C : Scene) (hC : getScene cid s = some C) (dc : SceneData) (hdc : dc.created = none) :
    (∃ P2, (updateProject now pid dp s).1 = .ok P2 ∧ P2.created = P.created ∧ P2.modified = now) ∧
    (∃ A2, (updateAsset now aid da s).1 = .ok A2 ∧ A2.created = A.created ∧ A2.modified = now) ∧
    (∃ C2, (updateScene now cid dc s).1 = .ok C2 ∧ C2.created = C.created ∧ C2.modified = now) := by
  rw [updateProject_found now pid dp s P hP, updateAsset_found now aid da s A hA,
    updateScene_found now cid dc s C hC]
  refine ⟨⟨mergeProject P dp pid now, rfl, ?_, rfl⟩, ⟨mergeAsset A da aid now, rfl, ?_, rfl⟩,
    ⟨mergeScene C dc cid now, rfl, ?_, rfl⟩⟩
  · simp [mergeProject, hdp]
  · simp [mergeAsset, hda]
  · simp [mergeScene, hdc]

/-- Witness for the amended C4 on the demo store. -/
theorem claim_C4_update_timestamps_witness :
    (∃ P2, (updateProject 9 1000 { name := some demoName } demoState).1 = .ok P2 ∧
      P2.created = demoProject.created ∧ P2.modified = 9) ∧
    (∃ A2, (updateAsset 9 1000 { name := some demoName } demoState).1 = .ok A2 ∧
      A2.created = demoAsset.created ∧ A2.modified = 9) ∧
    (∃ C2, (updateScene 9 1000 { name := some demoName } demoState).1 = .ok C2 ∧
      C2.created = demoScene.created ∧ C2.modified = 9) :=
  claim_C4_update_timestamps demoState 9 1000 1000 1000
    demoProject (by decide) { name := some demoName } rfl
    demoAsset (by decide) { name := some demoName } rfl
    demoScene (by decide) { name := some demoName } rfl

/-- Counterexample to C1 as stated: the claim says an imported asset keeps its
snapshot id whenever the target store does not already use that id.  Importing
into the empty store a snapshot whose only asset has id 5 — an id no record
uses — produces an asset store whose only id is the freshly issued 1000, not
5: `createAsset` always issues a new id and ignores the snapshot's. -/
theorem claim_C1_counterexample :
    initialState.assets = [] ∧
    (importProject 0 cxSnapshot initialState).2.assets.map Asset.id = [1000] ∧
    (5 : Nat) ∉ (importProject 0 cxSnapshot initialState).2.assets.map Asset.id := by decide

/-- Claim C1 (amended): Import creates a new Project under a freshly issued
identifier that no stored project uses, and writes every snapshot Asset and
Scene with `projectId` overwritten to the new Project's id; every imported
Asset and Scene receives a freshly issued identifier from its kind's counter —
the snapshot's original Asset/Scene identifiers are never preserved, so no
collision with existing records can occur. -/
theorem claim_C1_import_issues_fresh_ids (s : StoreState) (h : WF s) (now t : Nat)
    (P : Project) (as : List Asset) (cs : List Scene) :
    ∃ proj,
      (importProject now { project := some P, assets := some as, scenes := some cs, exportedAt := t } s).1 =
        .ok proj ∧
      proj.id = s.nextProjectId ∧
      proj.id ∉ s.projects.map Project.id ∧
      (importProject now { project := some P, assets := some as, scenes := some cs, exportedAt := t } s).2.assets =
        s.assets ++ importedAssetRecords now proj.id s.nextAssetId as ∧
      (importProject now { project := some P, assets := some as, scenes := some cs, exportedAt := t } s).2.scenes =
        s.scenes ++ importedSceneRecords now proj.id s.nextSceneId cs ∧
      (∀ x ∈ importedAssetRecords now proj.id s.nextAssetId as,
        x.projectId = proj.id ∧ x.id ∉ s.assets.map Asset.id) ∧
      (∀ x ∈ importedSceneRecords now proj.id s.nextSceneId cs,
        x.projectId = proj.id ∧ x.id ∉ s.scenes.map Scene.id) := by
  obtain ⟨i1, i2, i3, i4, i5⟩ := importProject_spec now t P as cs s h
  have hbase : baselineId ≤ s.nextProjectId := h.1.2.2
  have hpid0 : s.nextProjectId ≠ 0 := by
    simp only [baselineId] at hbase
    omega
  refine ⟨buildProject s.nextProjectId now P.toData, i1, rfl, ?_, ?_, ?_, ?_, ?_⟩
  · intro hmem
    obtain ⟨p, hpmem, hpe⟩ := List.mem_map.mp hmem
    have := h.1.1 p hpmem
    simp only [buildProject_id] at hpe
    omega
  · simpa using i3
  · simpa using i4
  · intro x hx
    simp only [buildProject_id] at hx ⊢
    obtain ⟨h1, h2⟩ := importedAssetRecords_mem now s.nextProjectId hx hpid0
    refine ⟨h1, ?_⟩
    intro hmm
    obtain ⟨a, hamem, haeq⟩ := List.mem_map.mp hmm
    have := h.2.1.1 a hamem
    omega
  · intro x hx
    simp only [buildProject_id] at hx ⊢
    obtain ⟨h1, h2⟩ := importedSceneRecords_mem now s.nextProjectId hx hpid0
    refine ⟨h1, ?_⟩
    intro hmm
    obtain ⟨c, hcmem, hceq⟩ := List.mem_map.mp hmm
    have := h.2.2.1 c hcmem
    omega

/-- Witness for the amended C1: importing the id-5 snapshot into the empty
store. -/
theorem claim_C1_import_issues_fresh_ids_witness :
    ∃ proj,
      (importProject 0 cxSnapshot initialState).1 = .ok proj ∧
      proj.id = initialState.nextProjectId ∧
      proj.id ∉ initialState.projects.map Project.id ∧
      (importProject 0 cxSnapshot initialState).2.assets =
        initialState.assets ++ importedAssetRecords 0 proj.id initialState.nextAssetId [cxImportAsset] ∧
      (importProject 0 cxSnapshot initialState).2.scenes =
        initialState.scenes ++ importedSceneRecords 0 proj.id initialState.nextSceneId [] ∧
      (∀ x ∈ importedAssetRecords 0 proj.id initialState.nextAssetId [cxImportAsset],
        x.projectId = proj.id ∧ x.id ∉ initialState.assets.map Asset.id) ∧
      (∀ x ∈ importedSceneRecords 0 proj.id initialState.nextSceneId [],
        x.projectId = proj.id ∧ x.id ∉ initialState.scenes.map Scene.id) :=
  claim_C1_import_issues_fresh_ids initialState wf_initialState 0 0
    cxImportProject [cxImportAsset] []

/-- Counterexample to C3 as stated: a stored project whose name is the empty
string (reached through the public API: create "Demo", then update the name to
the empty string) does not round-trip — `createProject` treats the falsy name
as absent during import and substitutes the default, so the re-imported
project's name differs from the original's. -/
theorem claim_C3_counterexample :
    (getProject 1000 cxEmptyNameState).map Project.name = some emptyName ∧
    (resultOk (importProject 3 (exportProject 2 1000 cxEmptyNameState) cxEmptyNameState).1).map
        Project.name = some untitledProject ∧
    some untitledProject ≠ some emptyName := by decide

/-- Claim C3 (amended): for every stored project `P` of a well-formed store
whose name is non-empty (a falsy name is replaced by the create default on
re-import), exporting and then importing the snapshot yields a new project
whose name, description and settings equal `P`'s, whose id differs from
`P`'s, and the numbers of imported assets and scenes equal the numbers `P`
had at export time. -/
theorem claim_C3_round_trip (s : StoreState) (h : WF s) (t now pid : Nat) (P : Project)
    (hP : getProject pid s = some P) (hname : P.name ≠ "") :
    ∃ Q, (importProject now (exportProject t pid s) s).1 = .ok Q ∧
      Q.name = P.name ∧ Q.description = P.description ∧ Q.settings = P.settings ∧
      Q.id ≠ P.id ∧
      (importProject now (exportProject t pid s) s).2.assets.length =
        s.assets.length + (listAssets pid none s).length ∧
      (importProject now (exportProject t pid s) s).2.scenes.length =
        s.scenes.length + (listScenes pid none s).length := by
  have hsnap : exportProject t pid s =
      { project := some P, assets := some (listAssets pid none s),
        scenes := some (listScenes pid none s), exportedAt := t } := by
    simp [exportProject, hP]
  rw [hsnap]
  obtain ⟨i1, i2, i3, i4, i5⟩ :=
    importProject_spec now t P (listAssets pid none s) (listScenes pid none s) s h
  refine ⟨buildProject s.nextProjectId now P.toData, i1, ?_, ?_, ?_, ?_, ?_, ?_⟩
  · simp [buildProject, Project.toData, jsOrStr, hname]
  · simp only [buildProject, Project.toData]
    by_cases hd : P.description = "" <;> simp [jsOrStr, hd]
  · simp [buildProject, Project.toData]
  · obtain ⟨hmem, hid⟩ := getRec_some hP
    have hlt := h.1.1 P hmem
    simp only [buildProject_id]
    omega
  · rw [i3]
    simp
  · rw [i4]
    simp

/-- Claim C5: on a well-formed store, Create succeeds for every input, the
returned record's id is the freshly issued counter value — unique among the
stored records of its kind — its `created` equals its `modified`, and any
later Create of the same kind (after any clear-free sequence of API calls)
returns a strictly greater id; for Projects, Assets, and Scenes.  (`clearAll`
ends the database lifetime by resetting the counters to baseline, so the
sequence between the two creates is restricted to clear-free calls.)  The two
timestamp reads inside one create are modelled as the same logical instant. -/
theorem claim_C5_create_contract (s : StoreState) (h : WF s)
    (ops : List Op) (hops : ∀ o ∈ ops, o.isClear = false)
    (now now2 : Nat) (dp dp2 : ProjectData) (da da2 : AssetData) (dc dc2 : SceneData) :
    (∃ p, (createProject now dp s).1 = .ok p ∧ p.created = p.modified ∧
      (∀ q ∈ s.projects, q.id ≠ p.id) ∧
      ∃ p2, (createProject now2 dp2 (applyOps ops (createProject now dp s).2)).1 = .ok p2 ∧
        p2.created = p2.modified ∧
        (∀ q ∈ (applyOps ops (createProject now dp s).2).projects, q.id ≠ p2.id) ∧
        p.id < p2.id) ∧
    (∃ a, (createAsset now da s).1 = .ok a ∧ a.created = a.modified ∧
      (∀ q ∈ s.assets, q.id ≠ a.id) ∧
      ∃ a2, (createAsset now2 da2 (applyOps ops (createAsset now da s).2)).1 = .ok a2 ∧
        a2.created = a2.modified ∧
        (∀ q ∈ (applyOps ops (createAsset now da s).2).assets, q.id ≠ a2.id) ∧
        a.id < a2.id) ∧
    (∃ c, (createScene now dc s).1 = .ok c ∧ c.created = c.modified ∧
      (∀ q ∈ s.scenes, q.id ≠ c.id) ∧
      ∃ c2, (createScene now2 dc2 (applyOps ops (createScene now dc s).2)).1 = .ok c2 ∧
        c2.created = c2.modified ∧
        (∀ q ∈ (applyOps ops (createScene now dc s).2).scenes, q.id ≠ c2.id) ∧
        c.id < c2.id) := by
  refine ⟨?_, ?_, ?_⟩
  · obtain ⟨p, e1, e2, e3, e4⟩ := createProject_contract s h now dp
    have hW1 := wf_createProject now dp s h
    obtain ⟨u1, u2, _, _⟩ := wf_mono_applyOps ops _ hW1 hops
    obtain ⟨p2, f1, f2, f3, f4⟩ := createProject_contract _ u1 now2 dp2
    refine ⟨p, e1, e2, e3, p2, f1, f2, f3, ?_⟩
    have hctr : (createProject now dp s).2.nextProjectId = s.nextProjectId + 1 := by
      rw [createProject_ok now dp s h.1.1]
    rw [e4, f4]
    rw [hctr] at u2
    omega
  · obtain ⟨a, e1, e2, e3, e4⟩ := createAsset_contract s h now da
    have hW1 := wf_createAsset now da s h
    obtain ⟨u1, _, u3, _⟩ := wf_mono_applyOps ops _ hW1 hops
    obtain ⟨a2, f1, f2, f3, f4⟩ := createAsset_contract _ u1 now2 da2
    refine ⟨a, e1, e2, e3, a2, f1, f2, f3, ?_⟩
    have hctr : (createAsset now da s).2.nextAssetId = s.nextAssetId + 1 := by
      rw [createAsset_ok now da s h.2.1.1]
    rw [e4, f4]
    rw [hctr] at u3
    omega
  · obtain ⟨c, e1, e2, e3, e4⟩ := createScene_contract s h now dc
    have hW1 := wf_createScene now dc s h
    obtain ⟨u1, _, _, u4⟩ := wf_mono_applyOps ops _ hW1 hops
    obtain ⟨c2, f1, f2, f3, f4⟩ := createScene_contract _ u1 now2 dc2
    refine ⟨c, e1, e2, e3, c2, f1, f2, f3, ?_⟩
    have hctr : (createScene now dc s).2.nextSceneId = s.nextSceneId + 1 := by
      rw [createScene_ok now dc s h.2.2.1]
    rw [e4, f4]
    rw [hctr] at u4
    omega

/-- Witness for C5 on the demo store, with one cascade delete between the two
creates of each kind. -/
theorem claim_C5_create_contract_witness :
    (∃ p, (createProject 6 {} demoState).1 = .ok p ∧ p.created = p.modified ∧
      (∀ q ∈ demoState.projects, q.id ≠ p.id) ∧
      ∃ p2, (createProject 7 {} (applyOps [Op.deleteProject 1000] (createProject 6 {} demoState).2)).1 = .ok p2 ∧
        p2.created = p2.modified ∧
        (∀ q ∈ (applyOps [Op.deleteProject 1000] (createProject 6 {} demoState).2).projects, q.id ≠ p2.id) ∧
        p.id < p2.id) ∧
    (∃ a, (createAsset 6 {} demoState).1 = .ok a ∧ a.created = a.modified ∧
      (∀ q ∈ demoState.assets, q.id ≠ a.id) ∧
      ∃ a2, (createAsset 7 {} (applyOps [Op.deleteProject 1000] (createAsset 6 {} demoState).2)).1 = .ok a2 ∧
        a2.created = a2.modified ∧
        (∀ q ∈ (applyOps [Op.deleteProject 1000] (createAsset 6 {} demoState).2).assets, q.id ≠ a2.id) ∧
        a.id < a2.id) ∧
    (∃ c, (createScene 6 {} demoState).1 = .ok c ∧ c.created = c.modified ∧
      (∀ q ∈ demoState.scenes, q.id ≠ c.id) ∧
      ∃ c2, (createScene 7 {} (applyOps [Op.deleteProject 1000] (createScene 6 {} demoState).2)).1 = .ok c2 ∧
        c2.created = c2.modified ∧
        (∀ q ∈ (applyOps [Op.deleteProject 1000] (createScene 6 {} demoState).2).scenes, q.id ≠ c2.id) ∧
        c.id < c2.id) :=
  claim_C5_create_contract demoState (by decide) [Op.deleteProject 1000] (by simp [Op.isClear])
    6 7 {} {} {} {} {} {}

/-! ### Sequence lemmas for counter durability -/

theorem createProjectsSeq_cons (now : Nat) (d : ProjectData) (rest : List ProjectData)
    (s : StoreState) :
    createProjectsSeq now (d :: rest) s =
      (s.nextProjectId :: (createProjectsSeq now rest (createProject now d s).2).1,
        (createProjectsSeq now rest (createProject now d s).2).2) := rfl

theorem createAssetsSeq_cons (now : Nat) (d : AssetData) (rest : List AssetData)
    (s : StoreState) :
    createAssetsSeq now (d :: rest) s =
      (s.nextAssetId :: (createAssetsSeq now rest (createAsset now d s).2).1,
        (createAssetsSeq now rest (createAsset now d s).2).2) := rfl

theorem createScenesSeq_cons (now : Nat) (d : SceneData) (rest : List SceneData)
    (s : StoreState) :
    createScenesSeq now (d :: rest) s =
      (s.nextSceneId :: (createScenesSeq now rest (createScene now d s).2).1,
        (createScenesSeq now rest (createScene now d s).2).2) := rfl

theorem createProjectsSeq_spec (now : Nat) (ds : List ProjectData) (s : StoreState) (h : WF s) :
    WF (createProjectsSeq now ds s).2 ∧
    (createProjectsSeq now ds s).2.nextProjectId = s.nextProjectId + ds.length ∧
    (∀ i ∈ (createProjectsSeq now ds s).1,
      s.nextProjectId ≤ i ∧ i < s.nextProjectId + ds.length) ∧
    (ds ≠ [] → (createProjectsSeq now ds s).2.metadata.nextProjectId =
      some (s.nextProjectId + ds.length)) := by
  induction ds generalizing s with
  | nil =>
    refine ⟨h, by simp [createProjectsSeq], ?_, by simp⟩
    intro i hi
    simp [createProjectsSeq] at hi
  | cons d rest ih =>
    have hW1 := wf_createProject now d s h
    have hc := createProject_ok now d s h.1.1
    have hctr : (createProject now d s).2.nextProjectId = s.nextProjectId + 1 := by rw [hc]
    obtain ⟨w1, w2, w3, w4⟩ := ih (createProject now d s).2 hW1
    rw [createProjectsSeq_cons]
    refine ⟨w1, ?_, ?_, ?_⟩
    · simp only [List.length_cons]
      rw [w2, hctr]
      omega
    · intro i hi
      simp only [List.mem_cons] at hi
      rcases hi with hi | hi
      · subst hi
        simp only [List.length_cons]
        omega
      · obtain ⟨g1, g2⟩ := w3 i hi
        rw [hctr] at g1 g2
        simp only [List.length_cons]
        omega
    · intro _
      by_cases hrest : rest = []
      · subst hrest
        show (createProject now d s).2.metadata.nextProjectId = _
        rw [hc]
        simp
      · have := w4 hrest
        rw [this, hctr]
        simp only [List.length_cons, Option.some.injEq]
        omega

theorem createAssetsSeq_spec (now : Nat) (ds : List AssetData) (s : StoreState) (h : WF s) :
    WF (createAssetsSeq now ds s).2 ∧
    (createAssetsSeq now ds s).2.nextAssetId = s.nextAssetId + ds.length ∧
    (∀ i ∈ (createAssetsSeq now ds s).1,
      s.nextAssetId ≤ i ∧ i < s.nextAssetId + ds.length) ∧
    (ds ≠ [] → (createAssetsSeq now ds s).2.metadata.nextAssetId =
      some (s.nextAssetId + ds.length)) := by
  induction ds generalizing s with
  | nil =>
    refine ⟨h, by simp [createAssetsSeq], ?_, by simp⟩
    intro i hi
    simp [createAssetsSeq] at hi
  | cons d rest ih =>
    have hW1 := wf_createAsset now d s h
    have hc := createAsset_ok now d s h.2.1.1
    have hctr : (createAsset now d s).2.nextAssetId = s.nextAssetId + 1 := by rw [hc]
    obtain ⟨w1, w2, w3, w4⟩ := ih (createAsset now d s).2 hW1
    rw [createAssetsSeq_cons]
    refine ⟨w1, ?_, ?_, ?_⟩
    · simp only [List.length_cons]
      rw [w2, hctr]
      omega
    · intro i hi
      simp only [List.mem_cons] at hi
      rcases hi with hi | hi
      · subst hi
        simp only [List.length_cons]
        omega
      · obtain ⟨g1, g2⟩ := w3 i hi
        rw [hctr] at g1 g2
        simp only [List.length_cons]
        omega
    · intro _
      by_cases hrest : rest = []
      · subst hrest
        show (createAsset now d s).2.metadata.nextAssetId = _
        rw [hc]
        simp
      · have := w4 hrest
        rw [this, hctr]
        simp only [List.length_cons, Option.some.injEq]
        omega

theorem createScenesSeq_spec (now : Nat) (ds : List SceneData) (s : StoreState) (h : WF s) :
    WF (createScenesSeq now ds s).2 ∧
    (createScenesSeq now ds s).2.nextSceneId = s.nextSceneId + ds.length ∧
    (∀ i ∈ (createScenesSeq now ds s).1,
      s.nextSceneId ≤ i ∧ i < s.nextSceneId + ds.length) ∧
    (ds ≠ [] → (createScenesSeq now ds s).2.metadata.nextSceneId =
      some (s.nextSceneId + ds.length)) := by
  induction ds generalizing s with
  | nil =>
    refine ⟨h, by simp [createScenesSeq], ?_, by simp⟩
    intro i hi
    simp [createScenesSeq] at hi
  | cons d rest ih =>
    have hW1 := wf_createScene now d s h
    have hc := createScene_ok now d s h.2.2.1
    have hctr : (createScene now d s).2.nextSceneId = s.nextSceneId + 1 := by rw [hc]
    obtain ⟨w1, w2, w3, w4⟩ := ih (createScene now d s).2 hW1
    rw [createScenesSeq_cons]
    refine ⟨w1, ?_, ?_, ?_⟩
    · simp only [List.length_cons]
      rw [w2, hctr]
      omega
    · intro i hi
      simp only [List.mem_cons] at hi
      rcases hi with hi | hi
      · subst hi
        simp only [List.length_cons]
        omega
      · obtain ⟨g1, g2⟩ := w3 i hi
        rw [hctr] at g1 g2
        simp only [List.length_cons]
        omega
    · intro _
      by_cases hrest : rest = []
      · subst hrest
        show (createScene now d s).2.metadata.nextSceneId = _
        rw [hc]
        simp
      · have := w4 hrest
        rw [this, hctr]
        simp only [List.length_cons, Option.some.injEq]
        omega

/-- Claim C2: the identifier counters survive a reload.  After a non-empty
sequence of creates of one entity kind, discarding the in-memory state and
re-initializing from the persisted metadata table, the next create of that
kind returns an id strictly greater than every previously issued id — because
`saveMetadata` persists the next-to-issue value after every issuance and
`loadMetadata` reads it back at startup. -/
theorem claim_C2_counter_durability (s : StoreState) (h : WF s) (now now2 : Nat)
    (dsP : List ProjectData) (hdsP : dsP ≠ []) (dP : ProjectData)
    (dsA : List AssetData) (hdsA : dsA ≠ []) (dA : AssetData)
    (dsC : List SceneData) (hdsC : dsC ≠ []) (dC : SceneData) :
    (∃ p, (createProject now2 dP (restart (createProjectsSeq now dsP s).2)).1 = .ok p ∧
      ∀ i ∈ (createProjectsSeq now dsP s).1, i < p.id) ∧
    (∃ a, (createAsset now2 dA (restart (createAssetsSeq now dsA s).2)).1 = .ok a ∧
      ∀ i ∈ (createAssetsSeq now dsA s).1, i < a.id) ∧
    (∃ c, (createScene now2 dC (restart (createScenesSeq now dsC s).2)).1 = .ok c ∧
      ∀ i ∈ (createScenesSeq now dsC s).1, i < c.id) := by
  refine ⟨?_, ?_, ?_⟩
  · obtain ⟨w1, w2, w3, _⟩ := createProjectsSeq_spec now dsP s h
    rw [restart_of_wf _ w1]
    obtain ⟨p, e1, _, _, e4⟩ := createProject_contract _ w1 now2 dP
    refine ⟨p, e1, ?_⟩
    intro i hi
    obtain ⟨_, g2⟩ := w3 i hi
    rw [e4, w2]
    omega
  · obtain ⟨w1, w2, w3, _⟩ := createAssetsSeq_spec now dsA s h
    rw [restart_of_wf _ w1]
    obtain ⟨a, e1, _, _, e4⟩ := createAsset_contract _ w1 now2 dA
    refine ⟨a, e1, ?_⟩
    intro i hi
    obtain ⟨_, g2⟩ := w3 i hi
    rw [e4, w2]
    omega
  · obtain ⟨w1, w2, w3, _⟩ := createScenesSeq_spec now dsC s h
    rw [restart_of_wf _ w1]
    obtain ⟨c, e1, _, _, e4⟩ := createScene_contract _ w1 now2 dC
    refine ⟨c, e1, ?_⟩
    intro i hi
    obtain ⟨_, g2⟩ := w3 i hi
    rw [e4, w2]
    omega

/-- Witness for C2: two creates of each kind from the empty store, then a
reload, then one more create. -/
theorem claim_C2_counter_durability_witness :
    (∃ p, (createProject 1 {} (restart (createProjectsSeq 0 [{}, {}] initialState).2)).1 = .ok p ∧
      ∀ i ∈ (createProjectsSeq 0 [{}, {}] initialState).1, i < p.id) ∧
    (∃ a, (createAsset 1 {} (restart (createAssetsSeq 0 [{}, {}] initialState).2)).1 = .ok a ∧
      ∀ i ∈ (createAssetsSeq 0 [{}, {}] initialState).1, i < a.id) ∧
    (∃ c, (createScene 1 {} (restart (createScenesSeq 0 [{}, {}] initialState).2)).1 = .ok c ∧
      ∀ i ∈ (createScenesSeq 0 [{}, {}] initialState).1, i < c.id) :=
  claim_C2_counter_durability initialState wf_initialState 0 1
    [{}, {}] (by simp) {} [{}, {}] (by simp) {} [{}, {}] (by simp) {}

/-- Witness for the amended C3 on the demo store. -/
theorem claim_C3_round_trip_witness :
    ∃ Q, (importProject 3 (exportProject 2 1000 demoState) demoState).1 = .ok Q ∧
      Q.name = demoProject.name ∧ Q.description = demoProject.description ∧
      Q.settings = demoProject.settings ∧ Q.id ≠ demoProject.id ∧
      (importProject 3 (exportProject 2 1000 demoState) demoState).2.assets.length =
        demoState.assets.length + (listAssets 1000 none demoState).length ∧
      (importProject 3 (exportProject 2 1000 demoState) demoState).2.scenes.length =
        demoState.scenes.length + (listScenes 1000 none demoState).length :=
  claim_C3_round_trip demoState (by decide) 2 3 1000 demoProject (by decide) (by decide)

/-- Claim C8: for every wrapped operation, the adapter performs exactly one
emission, after the same fixed 10 ms delay in either case: `load` with the
synthetic success status 200 and the resolved value when the promise
resolves, `error` with the synthetic server-error status 500 and the
rejection reason when it rejects — the same status for every rejection
reason, so error kinds are never distinguished. -/
theorem claim_C8_shim_settlement_events {α : Type} (pre mid post : List (String × Nat)) :
    (∀ v : α, (runLocalAjax (Outcome.ok v) pre mid post).emissions =
      [{ event := loadEvent, status := 200, payload := Payload.val v, delayMs := 10 }]) ∧
    (∀ e : JObj, (runLocalAjax (Outcome.err e : Outcome α) pre mid post).emissions =
      [{ event := errorEvent, status := 500, payload := Payload.err e, delayMs := 10 }]) := by
  constructor <;> intro x <;> rfl

/-- Counterexample to C9 as stated: a handler subscribed after the delayed
emission has already fired is stored but never invoked — the adapter emits
once and does not replay the event to later subscribers, so not every
subscription made "at any point after invoking the call" receives the
settlement event. -/
theorem claim_C9_counterexample :
    (runLocalAjax (Outcome.ok (7 : Nat)) [] [] [(loadEvent, 1)]).calls = [] ∧
    (loadEvent, 1) ∈ (runLocalAjax (Outcome.ok (7 : Nat)) [] [] [(loadEvent, 1)]).handlers := by
  decide

/-- Claim C9 (amended): a handler subscribed after the wrapped operation has
settled but before the delayed emission fires is stored and still invoked with
the settlement status and payload; precisely the handlers stored before the
emission (subscribed before or after settlement) are invoked, while handlers
subscribed after the emission are stored but receive nothing. -/
theorem claim_C9_subscribe_after_settle {α : Type} (o : Outcome α)
    (pre mid post : List (String × Nat)) (hid : Nat)
    (hm : ((settledEmission o).event, hid) ∈ mid) :
    (hid, (settledEmission o).status, (settledEmission o).payload) ∈
      (runLocalAjax o pre mid post).calls ∧
    (runLocalAjax o pre mid post).calls =
      ((pre ++ mid).filter (fun hnd => hnd.1 == (settledEmission o).event)).map
        (fun hnd => (hnd.2, (settledEmission o).status, (settledEmission o).payload)) ∧
    (runLocalAjax o pre mid post).handlers = pre ++ mid ++ post := by
  have hcalls : (runLocalAjax o pre mid post).calls =
      ((pre ++ mid).filter (fun hnd => hnd.1 == (settledEmission o).event)).map
        (fun hnd => (hnd.2, (settledEmission o).status, (settledEmission o).payload)) := by
    simp [runLocalAjax, ajaxOn, ajaxEmit]
  refine ⟨?_, hcalls, by simp [runLocalAjax, ajaxOn, ajaxEmit]⟩
  rw [hcalls]
  refine List.mem_map.mpr ⟨((settledEmission o).event, hid), ?_, rfl⟩
  exact List.mem_filter.mpr ⟨List.mem_append.mpr (Or.inr hm), by simp⟩

/-- Witness for the amended C9: a handler subscribed between settlement and
the emission of a resolved call receives the load event. -/
theorem claim_C9_subscribe_after_settle_witness :
    ((1 : Nat), (settledEmission (Outcome.ok (3 : Nat))).status,
        (settledEmission (Outcome.ok (3 : Nat))).payload) ∈
      (runLocalAjax (Outcome.ok (3 : Nat)) [] [(loadEvent, 1)] []).calls ∧
    (runLocalAjax (Outcome.ok (3 : Nat)) [] [(loadEvent, 1)] []).calls =
      (([] ++ [(loadEvent, 1)]).filter
          (fun hnd : String × Nat => hnd.1 == (settledEmission (Outcome.ok (3 : Nat))).event)).map
        (fun hnd : String × Nat => (hnd.2, (settledEmission (Outcome.ok (3 : Nat))).status,
          (settledEmission (Outcome.ok (3 : Nat))).payload)) ∧
    (runLocalAjax (Outcome.ok (3 : Nat)) [] [(loadEvent, 1)] []).handlers =
      [] ++ [(loadEvent, 1)] ++ [] :=
  claim_C9_subscribe_after_settle (Outcome.ok 3) [] [(loadEvent, 1)] [] 1 (by decide)

end Webeditor
